import Mathlib

/-!
Shallow embedding of the command-invocation and reply-marshalling pipeline of
src/src/context/mod.rs: the call-option builder, the value model, the reply
decoder (parse_call_reply), the invocation engine (call_internal / call /
call_ext), the reply encoder (reply and its helpers), the ACL key-permission
check and version parsing.

Conventions of the embedding:
- Rust String / &str are Lean String; raw byte buffers (Vec<u8>, &[u8]) are
  List Nat (each entry one byte).
- Opaque native handles are made explicit: a RedisModuleCallReply pointer is
  Option CallReply (none is the null pointer), the host side of the FFI is a
  function parameter ("host oracle"), and native release calls are recorded
  in an explicit event trace so that resource claims are statable.
- A Rust panic (a failed unwrap, e.g. CString::new on text containing NUL) is
  the Option value none of the whole operation.
- Functions keep the source names where Lean allows it.
-/

namespace RedisModule

/-- Alias for the payload types of the Rust source, so that constructor names
such as Bool or Float can coexist with the Lean types of the same name. -/
abbrev RustString := String

abbrev RustBool := Bool

abbrev RustFloat := Float

abbrev RustInt := Int

/-- UTF-8 encoding of one character, as the list of its bytes (the byte-level
view of a Rust String, whose storage is UTF-8). -/
def utf8Char (c : Char) : List Nat :=
  let n := c.toNat
  if n < 0x80 then [n]
  else if n < 0x800 then [0xC0 + n / 64, 0x80 + n % 64]
  else if n < 0x10000 then [0xE0 + n / 4096, 0x80 + (n / 64) % 64, 0x80 + n % 64]
  else [0xF0 + n / 262144, 0x80 + (n / 4096) % 64, 0x80 + (n / 64) % 64, 0x80 + n % 64]

/-- The bytes of a Rust String (its UTF-8 encoding). -/
def utf8 (s : RustString) : List Nat :=
  (s.data.map utf8Char).flatten

/-- std::ffi::CString::new: fails (Err, which the source turns into a panic
via unwrap) exactly when the byte sequence contains an interior NUL byte;
otherwise the bytes pass through unchanged. -/
def cstring_new (bytes : List Nat) : Option (List Nat) :=
  if bytes.contains 0 then none else some bytes

namespace raw

/-- raw::Status, the status returned by the native reply primitives. -/
inductive Status where
  | Ok
  | Err
  deriving Repr, DecidableEq

/-- Modelled from the spec: raw::FMT (not under src/) is the default call
format token used by Context::call, carrying only the base flag enabling
extended invocation, as a C string: the byte 'v' followed by the NUL
terminator. -/
def FMT : List Char := ['v', '\x00']

end raw

/-- RedisError (the error taxonomy of the crate root, declared outside src/
but fixed by its uses in src/src/context/mod.rs and by the spec §3:
WrongArity; WrongType; an owned message String; a static message Str). -/
inductive RedisError where
  | WrongArity
  | WrongType
  | String (s : RustString)
  | Str (s : RustString)
  deriving Repr, DecidableEq

/-- RedisValue, the tagged union of every reply/value shape (crate root,
fixed by its uses in src/src/context/mod.rs and by the spec §3). Map is a
HashMap from byte keys to values, modelled as an association list built by
upsert (so keys are unique); Set is a HashSet of byte sequences, modelled as
a duplicate-free list. Iteration order of the hash containers is not
observable in any claim proved here. -/
inductive RedisValue where
  | SimpleStringStatic (s : RustString)
  | SimpleString (s : RustString)
  | BulkString (s : RustString)
  | BulkRedisString (bytes : List Nat)
  | StringBuffer (bytes : List Nat)
  | Integer (i : RustInt)
  | Float (f : RustFloat)
  | Array (a : List RedisValue)
  | Map (m : List (List Nat × RedisValue))
  | Set (s : List (List Nat))
  | Bool (b : RustBool)
  | Double (d : RustFloat)
  | BigNumber (s : RustString)
  | VerbatimString (ts : RustString × RustString)
  | Null
  | NoReply

/-- RedisResult = Result<RedisValue, RedisError>. -/
abbrev RedisResult := Except RedisError RedisValue

/-- CallOptions: the encoded option token (a flag-character sequence ending
in the NUL sentinel). The Rust String content is modelled at the character
level. -/
structure CallOptions where
  options : List Char
  deriving Repr, DecidableEq

/-- CallOptionsBuilder: the chainable builder over its internal buffer. -/
structure CallOptionsBuilder where
  options : List Char
  deriving Repr, DecidableEq

namespace CallOptionsBuilder

/-- Default::default(): the buffer is seeded with the base flag "v". -/
def default : CallOptionsBuilder := { options := ['v'] }

/-- CallOptionsBuilder::new(), which is Self::default(). -/
def new : CallOptionsBuilder := default

/-- add_flag: push_str of the flag onto the internal buffer. -/
def add_flag (b : CallOptionsBuilder) (flag : List Char) : CallOptionsBuilder :=
  { b with options := b.options ++ flag }

def no_writes (b : CallOptionsBuilder) : CallOptionsBuilder := b.add_flag ['W']

def script_mode (b : CallOptionsBuilder) : CallOptionsBuilder := b.add_flag ['S']

def verify_acl (b : CallOptionsBuilder) : CallOptionsBuilder := b.add_flag ['C']

def verify_oom (b : CallOptionsBuilder) : CallOptionsBuilder := b.add_flag ['M']

def errors_as_replies (b : CallOptionsBuilder) : CallOptionsBuilder := b.add_flag ['E']

def replicate (b : CallOptionsBuilder) : CallOptionsBuilder := b.add_flag ['!']

def resp_3 (b : CallOptionsBuilder) : CallOptionsBuilder := b.add_flag ['3']

/-- constract(): clone the buffer and push the NUL terminator once, making
the immutable encoded token. -/
def constract (b : CallOptionsBuilder) : CallOptions :=
  { options := b.options ++ ['\x00'] }

end CallOptionsBuilder

/-- The seven flag setters of the builder, as a reified enumeration, so that
an arbitrary sequence of setter calls can be quantified over. -/
inductive CallOptionFlag where
  | noWrites
  | scriptMode
  | verifyAcl
  | verifyOom
  | errorsAsReplies
  | replicate
  | resp3
  deriving Repr, DecidableEq

/-- The flag character each setter appends. -/
def CallOptionFlag.flagChar : CallOptionFlag → Char
  | .noWrites => 'W'
  | .scriptMode => 'S'
  | .verifyAcl => 'C'
  | .verifyOom => 'M'
  | .errorsAsReplies => 'E'
  | .replicate => '!'
  | .resp3 => '3'

/-- Run one reified setter on the builder (dispatch to the source setters). -/
def applySetter (b : CallOptionsBuilder) : CallOptionFlag → CallOptionsBuilder
  | .noWrites => b.no_writes
  | .scriptMode => b.script_mode
  | .verifyAcl => b.verify_acl
  | .verifyOom => b.verify_oom
  | .errorsAsReplies => b.errors_as_replies
  | .replicate => b.replicate
  | .resp3 => b.resp_3

/-- Run a sequence of setter calls, in order, on the builder. -/
def applyFlags (b : CallOptionsBuilder) (fs : List CallOptionFlag) : CallOptionsBuilder :=
  fs.foldl applySetter b

namespace raw

/-- Modelled from the spec: the four ACL permission bits
REDISMODULE_CMD_KEY_ACCESS / INSERT / DELETE / UPDATE (declared in raw, not
under src/) form a bitmask of access, insert, delete, update; they are
distinct single bits. -/
def REDISMODULE_CMD_KEY_ACCESS : Nat := 1

def REDISMODULE_CMD_KEY_INSERT : Nat := 2

def REDISMODULE_CMD_KEY_DELETE : Nat := 4

def REDISMODULE_CMD_KEY_UPDATE : Nat := 8

end raw

/-- AclPermissions: a bitmask wrapper (u32 flags; the value set keeps it far
below 2^32, so Nat is exact here). -/
structure AclPermissions where
  flags : Nat
  deriving Repr, DecidableEq

namespace AclPermissions

/-- Default::default(): empty bitmask. -/
def default : AclPermissions := { flags := 0 }

/-- AclPermissions::new(), which is Self::default(). -/
def new : AclPermissions := default

def add_access_permission (p : AclPermissions) : AclPermissions :=
  { flags := p.flags ||| raw.REDISMODULE_CMD_KEY_ACCESS }

def add_insert_permission (p : AclPermissions) : AclPermissions :=
  { flags := p.flags ||| raw.REDISMODULE_CMD_KEY_INSERT }

def add_delete_permission (p : AclPermissions) : AclPermissions :=
  { flags := p.flags ||| raw.REDISMODULE_CMD_KEY_DELETE }

def add_update_permission (p : AclPermissions) : AclPermissions :=
  { flags := p.flags ||| raw.REDISMODULE_CMD_KEY_UPDATE }

def add_full_permission (p : AclPermissions) : AclPermissions :=
  p.add_access_permission.add_insert_permission.add_delete_permission.add_update_permission

end AclPermissions

/-- The tree behind a non-null RedisModuleCallReply handle: the tag returned
by raw::call_reply_type together with the payload the corresponding accessor
(call_reply_integer, call_reply_string_ptr, call_reply_array_element, ...)
would produce. A child handle of an array/map/set element is always non-null
and is the node itself. -/
inductive CallReply where
  | error (msg : RustString)
  | unknown
  | array (elems : List CallReply)
  | integer (i : RustInt)
  | string (bytes : List Nat)
  | null
  | map (pairs : List (CallReply × CallReply))
  | set (elems : List CallReply)
  | bool (b : RustInt)
  | double (d : RustFloat)
  | bigNumber (s : RustString)
  | verbatimString (t : RustString) (s : RustString)

/-- A native release call recorded by the model: raw::free_call_reply on the
given (non-null) reply handle. -/
inductive FreeEvent where
  | free (r : CallReply)

/-- The HashMap::insert of the map decode loop: replace the value of an
existing key, otherwise append the binding. -/
def assocInsert (m : List (List Nat × RedisValue)) (k : List Nat) (v : RedisValue) :
    List (List Nat × RedisValue) :=
  match m with
  | [] => [(k, v)]
  | (k0, v0) :: rest =>
    if k0 = k then (k0, v) :: rest else (k0, v0) :: assocInsert rest k v

/-- The HashSet::insert of the set decode loop. -/
def setInsert (s : List (List Nat)) (v : List Nat) : List (List Nat) :=
  if s.contains v then s else s ++ [v]

/-- Rust's f64 Display conversion (f.to_string()), used when a float value is
narrowed to a map key / set member. Unreachable from the decoder (the decoder
never constructs RedisValue::Float), so the exact digit rendering — here the
host formatter of Lean — is never load-bearing. -/
def rust_f64_to_string (f : RustFloat) : RustString := toString f

/-- Rust's i64 Display conversion (i.to_string()): sign then decimal digits,
which Lean's Int.repr matches exactly. -/
def rust_i64_to_string (i : RustInt) : RustString := toString i

/-- The map-key narrowing match of the Map arm of parse_call_reply: project
the decoded key to a byte sequence, or fail for a variant with no defined
byte-sequence projection. -/
def map_key_bytes (key : RedisValue) : Except RedisError (List Nat) :=
  match key with
  | .SimpleString s => .ok (utf8 s)
  | .SimpleStringStatic s => .ok (utf8 s)
  | .BulkString s => .ok (utf8 s)
  | .BulkRedisString s => .ok s
  | .Integer i => .ok (utf8 (rust_i64_to_string i))
  | .Float f => .ok (utf8 (rust_f64_to_string f))
  | .StringBuffer b => .ok b
  | _ => .error (.Str "type is not supported as map key")

/-- The member narrowing match of the Set arm of parse_call_reply. -/
def set_member_bytes (val : RedisValue) : Except RedisError (List Nat) :=
  match val with
  | .SimpleString s => .ok (utf8 s)
  | .SimpleStringStatic s => .ok (utf8 s)
  | .BulkString s => .ok (utf8 s)
  | .BulkRedisString s => .ok s
  | .Integer i => .ok (utf8 (rust_i64_to_string i))
  | .Float f => .ok (utf8 (rust_f64_to_string f))
  | .StringBuffer b => .ok b
  | _ => .error (.Str "type is not supported on set")

/-- Whether a RedisValue variant has a byte-sequence projection in the two
narrowing matches above (the seven accepted arms). -/
def has_bytes_projection (v : RedisValue) : Bool :=
  match v with
  | .SimpleString _ => true
  | .SimpleStringStatic _ => true
  | .BulkString _ => true
  | .BulkRedisString _ => true
  | .Integer _ => true
  | .Float _ => true
  | .StringBuffer _ => true
  | _ => false

namespace raw

/-- The reply-tag enumeration raw::ReplyType. -/
inductive ReplyType where
  | Unknown
  | Array
  | Error
  | Integer
  | String
  | Null
  | Map
  | Set
  | Bool
  | Double
  | BigNumber
  | VerbatimString
  deriving Repr, DecidableEq

/-- raw::call_reply_type. Modelled from the spec for the part outside src/:
a null reply handle (a failed or absent call) has the Unknown tag, so that it
surfaces as a generic error, distinguishable from an explicit null-type reply
(spec §4.2). A non-null handle reports its node's tag. -/
def call_reply_type (reply : Option CallReply) : ReplyType :=
  match reply with
  | none => .Unknown
  | some (.error _) => .Error
  | some .unknown => .Unknown
  | some (.array _) => .Array
  | some (.integer _) => .Integer
  | some (.string _) => .String
  | some .null => .Null
  | some (.map _) => .Map
  | some (.set _) => .Set
  | some (.bool _) => .Bool
  | some (.double _) => .Double
  | some (.bigNumber _) => .BigNumber
  | some (.verbatimString _ _) => .VerbatimString

end raw

mutual

/-- The body of Context::parse_call_reply on a reply handle that carries a
tag (an explicit match arm per raw::ReplyType). Each result is paired with
the trace of native release calls the arm performs — no arm of the source
contains one, which is what the traces record. The loops of the Array, Map
and Set arms (with their early returns via the question-mark operator) are
the three sibling functions. -/
def parseOne : CallReply → (Except RedisError RedisValue × List FreeEvent)
  | .error msg => (.error (.String msg), [])
  | .unknown => (.error (.Str "Error on method call"), [])
  | .array elems =>
    match parseElems elems with
    | (.error e, t) => (.error e, t)
    | (.ok vec, t) => (.ok (.Array vec), t)
  | .integer i => (.ok (.Integer i), [])
  | .string bytes => (.ok (.StringBuffer bytes), [])
  | .null => (.ok .Null, [])
  | .map pairs =>
    match parsePairs pairs with
    | (.error e, t) => (.error e, t)
    | (.ok l, t) => (.ok (.Map (l.foldl (fun m kv => assocInsert m kv.1 kv.2) [])), t)
  | .set elems =>
    match parseMembers elems with
    | (.error e, t) => (.error e, t)
    | (.ok l, t) => (.ok (.Set (l.foldl setInsert [])), t)
  | .bool b => (.ok (.Bool (b != 0)), [])
  | .double d => (.ok (.Double d), [])
  | .bigNumber s => (.ok (.BigNumber s), [])
  | .verbatimString t s => (.ok (.VerbatimString (t, s)), [])

/-- The Array-arm loop: parse each element handle in order, propagating the
first child failure. -/
def parseElems : List CallReply → (Except RedisError (List RedisValue) × List FreeEvent)
  | [] => (.ok [], [])
  | e :: rest =>
    match parseOne e with
    | (.error m, t) => (.error m, t)
    | (.ok v, t) =>
      match parseElems rest with
      | (.error m, t2) => (.error m, t ++ t2)
      | (.ok vs, t2) => (.ok (v :: vs), t ++ t2)

/-- The Map-arm loop: parse the key handle, parse the value handle, then
narrow the key to bytes, each step propagating failure; yields the raw
binding list that the arm folds into the HashMap. -/
def parsePairs :
    List (CallReply × CallReply) →
      (Except RedisError (List (List Nat × RedisValue)) × List FreeEvent)
  | [] => (.ok [], [])
  | (key, val) :: rest =>
    match parseOne key with
    | (.error m, t) => (.error m, t)
    | (.ok keyv, t) =>
      match parseOne val with
      | (.error m, t2) => (.error m, t ++ t2)
      | (.ok valv, t2) =>
        match map_key_bytes keyv with
        | .error m => (.error m, t ++ t2)
        | .ok keyb =>
          match parsePairs rest with
          | (.error m, t3) => (.error m, t ++ t2 ++ t3)
          | (.ok l, t3) => (.ok ((keyb, valv) :: l), t ++ t2 ++ t3)

/-- The Set-arm loop: parse each member handle then narrow it to bytes,
propagating failure; yields the raw member list that the arm folds into the
HashSet. -/
def parseMembers : List CallReply → (Except RedisError (List (List Nat)) × List FreeEvent)
  | [] => (.ok [], [])
  | e :: rest =>
    match parseOne e with
    | (.error m, t) => (.error m, t)
    | (.ok v, t) =>
      match set_member_bytes v with
      | .error m => (.error m, t)
      | .ok b =>
        match parseMembers rest with
        | (.error m, t2) => (.error m, t ++ t2)
        | (.ok l, t2) => (.ok (b :: l), t ++ t2)

end

/-- Context::parse_call_reply: dispatch on raw::call_reply_type of the
(possibly null) handle. A null handle reports the Unknown tag (see
raw.call_reply_type) and therefore takes the generic-error arm. -/
def parse_call_reply (reply : Option CallReply) :
    Except RedisError RedisValue × List FreeEvent :=
  match reply with
  | none => (.error (.Str "Error on method call"), [])
  | some r => parseOne r

/-- The host side of raw::RedisModule_Call: given the command name, the
options token (the C string the call received) and the argument byte slices,
the host produces the reply handle — null (none) for a failed/absent reply. -/
abbrev CallHost := RustString → List Char → List (List Nat) → Option CallReply

/-- Context::call_internal: perform the call through the host, decode the
reply with parse_call_reply, then — only if the reply handle is non-null —
release it with raw::free_call_reply (recorded as a trace event), and return
the decode result. The conversion of each argument slice into a scoped
RedisString handle is host-side state not observable here; a command name
containing an interior NUL would make CString::new(command).unwrap() panic,
a corner no claim touches and commands being string literals in practice. -/
def call_internal (host : CallHost) (command : RustString) (options : List Char)
    (args : List (List Nat)) : Except RedisError RedisValue × List FreeEvent :=
  let reply := host command options args
  let result := parse_call_reply reply
  match reply with
  | some r => (result.1, result.2 ++ [.free r])
  | none => (result.1, result.2)

/-- Context::call_ext: call_internal with the token of an explicitly built
CallOptions (options.options.as_ptr(), i.e. the token including its NUL
sentinel). -/
def call_ext (host : CallHost) (command : RustString) (options : CallOptions)
    (args : List (List Nat)) : Except RedisError RedisValue × List FreeEvent :=
  call_internal host command options.options args

/-- Context::call: call_internal with the default format token raw::FMT and
the arguments' bytes. -/
def call (host : CallHost) (command : RustString) (args : List RustString) :
    Except RedisError RedisValue × List FreeEvent :=
  call_internal host command raw.FMT (args.map (fun v => utf8 v))

/-- The byte produced for one character by str_as_legal_resp_string: CR, LF
and NUL become a space, every other character is truncated to its low byte
(the Rust cast c as u8). -/
def legal_byte (c : Char) : Nat :=
  if c = '\r' ∨ c = '\n' ∨ c = '\x00' then 32 else c.toNat % 256

/-- The sanitized byte sequence the legal-RESP conversion collects before
handing it to CString::new. -/
def legal_bytes (s : RustString) : List Nat :=
  s.data.map legal_byte

/-- Context::str_as_legal_resp_string: map CR, LF, NUL to a space character
wise, then CString::new(...).unwrap() — none is the panic of that unwrap
(possible only when some character's low byte is 0 without the character
being NUL itself, e.g. U+0100). -/
def str_as_legal_resp_string (s : RustString) : Option (List Nat) :=
  cstring_new (legal_bytes s)

/-- One native reply-emission primitive invocation, with the payload bytes it
is handed. -/
inductive Emit where
  | longLong (v : RustInt)
  | double (d : RustFloat)
  | simpleString (bytes : List Nat)
  | stringBuffer (bytes : List Nat)
  | redisString (bytes : List Nat)
  | arrayHeader (len : Nat)
  | mapHeader (len : Nat)
  | setHeader (len : Nat)
  | bool (b : RustBool)
  | bigNumber (bytes : List Nat)
  | verbatimString (fmt : RustString) (bytes : List Nat)
  | null
  | wrongArity
  | errorString (bytes : List Nat)

/-- The host side of the reply primitives: the raw::Status each native
emission call returns. -/
abbrev ReplyHost := Emit → raw.Status

/-- Context::reply_simple_string: sanitize through str_as_legal_resp_string
(none = the unwrap panic) and emit through ReplyWithSimpleString. -/
def reply_simple_string (prim : ReplyHost) (s : RustString) :
    Option (raw.Status × List Emit) :=
  match str_as_legal_resp_string s with
  | none => none
  | some bs => some (prim (.simpleString bs), [.simpleString bs])

/-- Context::reply_error_string: sanitize through str_as_legal_resp_string
and emit through ReplyWithError. -/
def reply_error_string (prim : ReplyHost) (s : RustString) :
    Option (raw.Status × List Emit) :=
  match str_as_legal_resp_string s with
  | none => none
  | some bs => some (prim (.errorString bs), [.errorString bs])

/-- Modelled from the spec: RedisError::WrongType's Display text (the error
enum lives outside src/); the spec fixes only that WrongType emits its fixed
message text. -/
def wrong_type_msg : RustString :=
  "WRONGTYPE Operation against a key holding the wrong kind of value"

mutual

/-- The Ok-value arms of Context::reply (each arm one native primitive). The
result is none when the arm panics (CString::new(s).unwrap() on a simple
string containing an interior NUL), otherwise the returned raw::Status
together with the trace of primitive invocations. The Array and Map arms
discard the header primitive's status and every child's status, returning
raw::Status::Ok themselves; the Set arm emits each member directly through
ReplyWithStringBuffer, also discarding statuses. -/
def replyValue (prim : ReplyHost) : RedisValue → Option (raw.Status × List Emit)
  | .Integer v => some (prim (.longLong v), [.longLong v])
  | .Float v => some (prim (.double v), [.double v])
  | .SimpleStringStatic s =>
    match cstring_new (utf8 s) with
    | none => none
    | some bs => some (prim (.simpleString bs), [.simpleString bs])
  | .SimpleString s =>
    match cstring_new (utf8 s) with
    | none => none
    | some bs => some (prim (.simpleString bs), [.simpleString bs])
  | .BulkString s =>
    some (prim (.stringBuffer (utf8 s)), [.stringBuffer (utf8 s)])
  | .BulkRedisString s => some (prim (.redisString s), [.redisString s])
  | .StringBuffer s => some (prim (.stringBuffer s), [.stringBuffer s])
  | .Array array =>
    match replyElems prim array with
    | none => none
    | some tr => some (.Ok, .arrayHeader array.length :: tr)
  | .Map m =>
    match replyMapPairs prim m with
    | none => none
    | some tr => some (.Ok, .mapHeader m.length :: tr)
  | .Set s =>
    some (.Ok, .setHeader s.length :: s.map (fun v => .stringBuffer v))
  | .Bool b => some (prim (.bool b), [.bool b])
  | .Double d => some (prim (.double d), [.double d])
  | .BigNumber s => some (prim (.bigNumber (utf8 s)), [.bigNumber (utf8 s)])
  | .VerbatimString ts =>
    some (prim (.verbatimString ts.1 (utf8 ts.2)), [.verbatimString ts.1 (utf8 ts.2)])
  | .Null => some (prim .null, [.null])
  | .NoReply => some (.Ok, [])

/-- The Array-arm loop of Context::reply: self.reply(Ok(elem)) per element,
its status discarded; a child panic aborts the whole reply. -/
def replyElems (prim : ReplyHost) : List RedisValue → Option (List Emit)
  | [] => some []
  | v :: rest =>
    match replyValue prim v with
    | none => none
    | some (_, tr) =>
      match replyElems prim rest with
      | none => none
      | some tr2 => some (tr ++ tr2)

/-- The Map-arm loop of Context::reply: the key through
ReplyWithStringBuffer (status discarded), then self.reply(Ok(val)) (status
discarded). -/
def replyMapPairs (prim : ReplyHost) :
    List (List Nat × RedisValue) → Option (List Emit)
  | [] => some []
  | kv :: rest =>
    match replyValue prim kv.2 with
    | none => none
    | some (_, tr) =>
      match replyMapPairs prim rest with
      | none => none
      | some tr2 => some (.stringBuffer kv.1 :: (tr ++ tr2))

end

/-- Context::reply. kpr is the value of self.is_keys_position_request(),
queried only by the WrongArity arm: in keys-position-request mode no client
reply can be produced and the arm returns raw::Status::Err having emitted
nothing; otherwise RedisModule_WrongArity emits the dedicated wrong-arity
reply. The other error arms go through reply_error_string. -/
def reply (prim : ReplyHost) (kpr : Bool) (r : RedisResult) :
    Option (raw.Status × List Emit) :=
  match r with
  | .ok v => replyValue prim v
  | .error .WrongArity =>
    if kpr then some (.Err, [])
    else some (prim .wrongArity, [.wrongArity])
  | .error .WrongType => reply_error_string prim wrong_type_msg
  | .error (.String s) => reply_error_string prim s
  | .error (.Str s) => reply_error_string prim s

/-- An opaque RedisModuleUser handle, identified by a number. -/
abbrev UserHandle := Nat

/-- The native calls Context::acl_check_key_permission performs after the
user handle has been resolved, recorded as a trace:
RedisModule_ACLCheckKeyPermissions on the handle / key / permission flags,
and RedisModule_FreeModuleUser on the handle. -/
inductive AclEvent where
  | aclCheckCall (user : UserHandle) (key : List Nat) (flags : Nat)
  | freeUser (user : UserHandle)
  deriving Repr, DecidableEq

/-- Context::acl_check_key_permission. The host side is two oracles:
get_user is RedisModule_GetModuleUserFromUserName (none is the null handle
of an unknown/disabled user), check is whether
RedisModule_ACLCheckKeyPermissions returns REDISMODULE_OK. A null user
handle fails immediately — no permission check, no release; a resolved
handle is checked once and freed once on both the granted and the denied
path. -/
def acl_check_key_permission (get_user : RustString → Option UserHandle)
    (check : UserHandle → List Nat → Nat → Bool) (user_name : RustString)
    (key_name : List Nat) (permissions : AclPermissions) :
    Except RedisError Unit × List AclEvent :=
  match get_user user_name with
  | none => (.error (.Str "User does not exists or disabled"), [])
  | some user =>
    if check user key_name permissions.flags then
      (.ok (), [.aclCheckCall user key_name permissions.flags, .freeUser user])
    else
      (.error (.Str "User does not have permissions on key"),
        [.aclCheckCall user key_name permissions.flags, .freeUser user])

/-- The Version structure of raw (fields are c_int; every value reached here
is a parsed nonnegative decimal, so Nat). -/
structure Version where
  major : Nat
  minor : Nat
  patch : Nat
  deriving Repr, DecidableEq

/-- A word character of the regex metacharacter backslash-b, ASCII range
(alphanumeric or underscore); the info text the pattern is applied to is
ASCII. -/
def is_word_char (c : Char) : Bool :=
  c.isAlphanum || c = '_'

/-- Strip a literal character sequence from the front of the input, or fail. -/
def drop_lit : List Char → List Char → Option (List Char)
  | [], l => some l
  | _ :: _, [] => none
  | c :: cs, x :: xs => if x = c then drop_lit cs xs else none

/-- Try to match, at the current position, the tail of the version pattern:
the literal redis_version colon, then three nonempty digit groups separated
by dots, the last followed by a word boundary. Greediness is exact here: a
maximal digit run followed by the required dot, and a backtracked shorter
third run can never create a word boundary between two digits. -/
def match_version_here (l : List Char) : Option (List Char × List Char × List Char) :=
  match drop_lit "redis_version:".data l with
  | none => none
  | some r1 =>
    let d1 := r1.takeWhile Char.isDigit
    let r2 := r1.dropWhile Char.isDigit
    if d1.isEmpty then none else
    match r2 with
    | '.' :: r3 =>
      let d2 := r3.takeWhile Char.isDigit
      let r4 := r3.dropWhile Char.isDigit
      if d2.isEmpty then none else
      match r4 with
      | '.' :: r5 =>
        let d3 := r5.takeWhile Char.isDigit
        let r6 := r5.dropWhile Char.isDigit
        if d3.isEmpty then none else
        match r6 with
        | [] => some (d1, d2, d3)
        | c :: _ => if is_word_char c then none else some (d1, d2, d3)
      | _ => none
    | _ => none

/-- Scan for the leftmost match position: a position opens a match only at a
word boundary (start of input or after a non-word character, the pattern
starting with the word character r). -/
def scan_version (prev_word : Bool) : List Char → Option (List Char × List Char × List Char)
  | [] => none
  | c :: rest =>
    if prev_word then scan_version (is_word_char c) rest
    else
      match match_version_here (c :: rest) with
      | some g => some g
      | none => scan_version (is_word_char c) rest

/-- Modelled from the spec: utils::get_regexp_captures (outside src/)
applied to the fixed pattern of version_from_info — per spec §6.3, parsing a
major.minor.patch pattern after redis_version out of the info text, with
word boundaries on both sides; the multiline flag is inert because the
pattern uses no anchors. Returns the three digit-group captures of the
leftmost match. -/
def get_regexp_captures_version (s : RustString) :
    Option (RustString × RustString × RustString) :=
  match scan_version false s.data with
  | none => none
  | some (d1, d2, d3) => some (⟨d1⟩, ⟨d2⟩, ⟨d3⟩)

/-- Decimal value of a digit-character group. -/
def parse_digits (l : List Char) : Nat :=
  l.foldl (fun a c => a * 10 + (c.toNat - 48)) 0

/-- The bound of str::parse::<c_int> on a capture: i32::MAX. A larger value
makes the source's unwrap panic (none below). -/
def c_int_max : Nat := 2147483647

/-- The body of Context::version_from_info after the info text has been
extracted from the value: regex capture then the three c_int parses, whose
unwrap panics (none) if a group exceeds i32. -/
def version_from_info_str (info_str : RustString) : Option (Except RedisError Version) :=
  match get_regexp_captures_version info_str with
  | some (d1, d2, d3) =>
    let maj := parse_digits d1.data
    let minr := parse_digits d2.data
    let pat := parse_digits d3.data
    if maj ≤ c_int_max ∧ minr ≤ c_int_max ∧ pat ≤ c_int_max then
      some (.ok { major := maj, minor := minr, patch := pat })
    else none
  | none => some (.error (.Str "Error getting redis_version"))

/-- UTF-8 decoding as std::str::from_utf8 performs it (rejecting truncated
sequences, stray continuation bytes, overlong forms, surrogates and values
above U+10FFFF), used by the StringBuffer arm of version_from_info. -/
def utf8_decode : List Nat → Option (List Char)
  | [] => some []
  | b0 :: rest =>
    if b0 < 0x80 then
      (utf8_decode rest).map (fun cs => Char.ofNat b0 :: cs)
    else if b0 < 0xC2 then none
    else if b0 < 0xE0 then
      match rest with
      | b1 :: rest1 =>
        if 0x80 ≤ b1 ∧ b1 < 0xC0 then
          (utf8_decode rest1).map
            (fun cs => Char.ofNat ((b0 - 0xC0) * 64 + (b1 - 0x80)) :: cs)
        else none
      | [] => none
    else if b0 < 0xF0 then
      match rest with
      | b1 :: b2 :: rest2 =>
        if 0x80 ≤ b1 ∧ b1 < 0xC0 ∧ 0x80 ≤ b2 ∧ b2 < 0xC0 then
          let cp := (b0 - 0xE0) * 4096 + (b1 - 0x80) * 64 + (b2 - 0x80)
          if 0x800 ≤ cp ∧ ¬(0xD800 ≤ cp ∧ cp < 0xE000) then
            (utf8_decode rest2).map (fun cs => Char.ofNat cp :: cs)
          else none
        else none
      | _ => none
    else if b0 < 0xF5 then
      match rest with
      | b1 :: b2 :: b3 :: rest3 =>
        if 0x80 ≤ b1 ∧ b1 < 0xC0 ∧ 0x80 ≤ b2 ∧ b2 < 0xC0 ∧ 0x80 ≤ b3 ∧ b3 < 0xC0 then
          let cp := (b0 - 0xF0) * 262144 + (b1 - 0x80) * 4096 + (b2 - 0x80) * 64 + (b3 - 0x80)
          if 0x10000 ≤ cp ∧ cp < 0x110000 then
            (utf8_decode rest3).map (fun cs => Char.ofNat cp :: cs)
          else none
        else none
      | _ => none
    else none

/-- Context::version_from_info: extract the info text from a SimpleString
value directly or from a StringBuffer through from_utf8 (whose unwrap panics
— none — on invalid UTF-8), fail on every other variant, then capture and
parse the version pattern. -/
def version_from_info (info : RedisValue) : Option (Except RedisError Version) :=
  match info with
  | .SimpleString info_str => version_from_info_str info_str
  | .StringBuffer b =>
    match utf8_decode b with
    | none => none
    | some cs => version_from_info_str ⟨cs⟩
  | _ => some (.error (.Str "Error getting redis_version"))

/-! Theorems. -/

/-- No arm of the decoder performs a native release call: the free-event
trace of parse_call_reply and of each of its loops is empty, on success and
on failure alike. -/
theorem parse_frees_nil_all :
    (∀ r, (parseOne r).2 = []) ∧ (∀ l, (parseMembers l).2 = []) ∧
    (∀ ps, (parsePairs ps).2 = []) ∧ (∀ l, (parseElems l).2 = []) := by
  apply parseOne.mutual_induct (fun r => (parseOne r).2 = [])
    (fun l => (parseMembers l).2 = [])
    (fun ps => (parsePairs ps).2 = [])
    (fun l => (parseElems l).2 = []) <;>
  intros <;> simp_all [parseOne, parseElems, parsePairs, parseMembers]

/-- Each reified setter appends exactly its flag character. -/
theorem applySetter_options (b : CallOptionsBuilder) (f : CallOptionFlag) :
    (applySetter b f).options = b.options ++ [f.flagChar] := by
  cases f <;> rfl

/-- A sequence of setter calls appends exactly the corresponding flag
characters, in call order. -/
theorem applyFlags_options (fs : List CallOptionFlag) (b : CallOptionsBuilder) :
    (applyFlags b fs).options = b.options ++ fs.map CallOptionFlag.flagChar := by
  induction fs generalizing b with
  | nil => simp [applyFlags]
  | cons f fs ih =>
    have h1 : applyFlags b (f :: fs) = applyFlags (applySetter b f) fs := rfl
    rw [h1, ih, applySetter_options]
    simp

/-- C5: for every sequence of flag-setter calls on the builder, the built
token is the base flag character v, then exactly the requested flag
characters in the order the setters were called (duplicates preserved, the
argument list being arbitrary), then exactly one NUL terminator. -/
theorem C5_option_token_layout (fs : List CallOptionFlag) :
    ((applyFlags CallOptionsBuilder.new fs).constract).options =
      'v' :: (fs.map CallOptionFlag.flagChar ++ ['\x00']) := by
  show (applyFlags CallOptionsBuilder.new fs).options ++ ['\x00'] = _
  rw [applyFlags_options]
  simp [CallOptionsBuilder.new, CallOptionsBuilder.default]

/-- C6: sending Err(WrongArity) through Context::reply while the context is
in keys-position-request mode returns the failure status and emits nothing;
in normal mode it emits exactly the dedicated wrong-arity reply, with the
status that primitive returned. -/
theorem C6_wrong_arity_modes (prim : ReplyHost) :
    reply prim true (.error .WrongArity) = some (raw.Status.Err, []) ∧
    reply prim false (.error .WrongArity) = some (prim .wrongArity, [.wrongArity]) :=
  ⟨rfl, rfl⟩

/-- C9: Context::call equals Context::call_ext with the token built by
CallOptionsBuilder::new().constract() — the default raw::FMT token is that
token, carrying only the base flag — for every host, command and argument
list. -/
theorem C9_call_default_options (host : CallHost) (command : RustString)
    (args : List RustString) :
    call host command args =
      call_ext host command CallOptionsBuilder.new.constract
        (args.map (fun v => utf8 v)) ∧
    CallOptionsBuilder.new.constract.options = raw.FMT :=
  ⟨rfl, rfl⟩

/-- C2: a null reply handle decodes to the generic error, an explicit
null-type reply decodes to Value::Null; through call_internal a failed call
surfaces as that generic error while a null-type reply surfaces as Ok(Null);
and the two outcomes are distinct, hence always distinguishable to the
caller. -/
theorem C2_null_handle_vs_null_reply :
    parse_call_reply none = (.error (.Str "Error on method call"), []) ∧
    parse_call_reply (some .null) = (.ok .Null, []) ∧
    (∀ (host : CallHost) command options args, host command options args = none →
      call_internal host command options args =
        (.error (.Str "Error on method call"), [])) ∧
    (∀ (host : CallHost) command options args,
      host command options args = some .null →
      call_internal host command options args = (.ok .Null, [.free .null])) ∧
    (Except.error (RedisError.Str "Error on method call") ≠
      (Except.ok RedisValue.Null : RedisResult)) := by
  refine ⟨rfl, rfl, ?_, ?_, by simp⟩
  · intro host command options args h
    simp [call_internal, h, parse_call_reply]
  · intro host command options args h
    simp [call_internal, h, parse_call_reply, parseOne]

/-- Witness for C2: concrete hosts returning the null handle and the
null-type reply. -/
theorem C2_witness :
    call_internal (fun _ _ _ => none) "get" raw.FMT [] =
      (.error (.Str "Error on method call"), []) ∧
    call_internal (fun _ _ _ => some .null) "get" raw.FMT [] =
      (.ok .Null, [.free .null]) :=
  ⟨C2_null_handle_vs_null_reply.2.2.1 (fun _ _ _ => none) "get" raw.FMT [] rfl,
    C2_null_handle_vs_null_reply.2.2.2.1 (fun _ _ _ => some .null) "get" raw.FMT [] rfl⟩

/-- C3: the decoder performs no release call at all (in particular none for
the child handles it borrows), and call_internal releases the root reply
handle exactly once whenever the call returned a non-null handle — on the
decode-success and the decode-failure path alike, the decode trace being
empty either way — and performs no release when the handle is null. -/
theorem C3_root_handle_released_once :
    (∀ r, (parse_call_reply r).2 = []) ∧
    (∀ (host : CallHost) command options args r,
      host command options args = some r →
      (call_internal host command options args).2 = [.free r]) ∧
    (∀ (host : CallHost) command options args,
      host command options args = none →
      (call_internal host command options args).2 = []) := by
  have hnil : ∀ r, (parse_call_reply r).2 = [] := by
    intro r
    cases r with
    | none => rfl
    | some rr => exact parse_frees_nil_all.1 rr
  refine ⟨hnil, ?_, ?_⟩
  · intro host command options args r h
    simp [call_internal, h, hnil (some r)]
  · intro host command options args h
    simp [call_internal, h, hnil none]

/-- Witness for C3: a host whose reply decodes successfully, a host whose
reply fails decoding (an unknown tag), and a host returning the null
handle. -/
theorem C3_witness :
    (call_internal (fun _ _ _ => some (.integer 5)) "get" raw.FMT []).2 =
      [.free (.integer 5)] ∧
    (call_internal (fun _ _ _ => some .unknown) "get" raw.FMT []).2 =
      [.free .unknown] ∧
    (call_internal (fun _ _ _ => none) "get" raw.FMT []).2 = [] :=
  ⟨C3_root_handle_released_once.2.1 (fun _ _ _ => some (.integer 5)) "get" raw.FMT []
      (.integer 5) rfl,
    C3_root_handle_released_once.2.1 (fun _ _ _ => some .unknown) "get" raw.FMT []
      .unknown rfl,
    C3_root_handle_released_once.2.2 (fun _ _ _ => none) "get" raw.FMT [] rfl⟩

/-- C10: whenever Context::reply finishes on an Array, Map or Set value, it
reports the success status regardless of the statuses the header primitive
and the element (and map-key) emissions returned — those are all discarded —
and the Set arm in addition always finishes, emitting the length header then
one string-buffer emission per member. -/
theorem C10_aggregate_status_discarded :
    (∀ (prim : ReplyHost) (kpr : Bool) (a : List RedisValue) st tr,
      reply prim kpr (.ok (.Array a)) = some (st, tr) → st = raw.Status.Ok) ∧
    (∀ (prim : ReplyHost) (kpr : Bool) (m : List (List Nat × RedisValue)) st tr,
      reply prim kpr (.ok (.Map m)) = some (st, tr) → st = raw.Status.Ok) ∧
    (∀ (prim : ReplyHost) (kpr : Bool) (s : List (List Nat)),
      reply prim kpr (.ok (.Set s)) =
        some (raw.Status.Ok, .setHeader s.length :: s.map (fun v => .stringBuffer v))) := by
  refine ⟨?_, ?_, fun prim kpr s => rfl⟩
  · intro prim kpr a st tr h
    cases he : replyElems prim a <;> simp [reply, replyValue, he] at h
    exact h.1.symm
  · intro prim kpr m st tr h
    cases he : replyMapPairs prim m <;> simp [reply, replyValue, he] at h
    exact h.1.symm

/-- Witness for C10: a host on which every primitive fails, and yet the
array reply reports success. -/
theorem C10_witness :
    reply (fun _ => raw.Status.Err) false (.ok (.Array [.Integer 1])) =
      some (raw.Status.Ok, [.arrayHeader 1, .longLong 1]) ∧
    raw.Status.Ok = raw.Status.Ok :=
  ⟨rfl, C10_aggregate_status_discarded.1 (fun _ => raw.Status.Err) false [.Integer 1]
    raw.Status.Ok [.arrayHeader 1, .longLong 1] rfl⟩

/-- Counterexample to C1 as stated: the Reply Encoder (Context::reply) does
not sanitize the SimpleString path. Sending the claim's own input, the
SimpleString a CR LF b NUL c, panics (CString::new(s).unwrap() on the
interior NUL — the model's none), so nothing is emitted, let alone the
sanitized a-space-space-b-space-c; and on NUL-free text the CR and LF bytes
are emitted verbatim rather than replaced by spaces. -/
theorem C1_counterexample :
    reply (fun _ => raw.Status.Ok) false (.ok (.SimpleString "a\r\nb\x00c")) = none ∧
    reply (fun _ => raw.Status.Ok) false (.ok (.SimpleString "a\r\nb")) =
      some (raw.Status.Ok, [.simpleString [97, 13, 10, 98]]) :=
  ⟨rfl, rfl⟩

/-- C1 amended: the CR/LF/NUL-to-space sanitization is performed by
Context::reply_simple_string and Context::reply_error_string (via
str_as_legal_resp_string), and on the claim's input it does produce the
bytes of a-space-space-b-space-c; the Reply Encoder's own SimpleString and
SimpleStringStatic arms, however, emit the text's bytes unsanitized when it
has no interior NUL and panic when it has one. -/
theorem C1_simple_string_sanitization :
    (∀ (prim : ReplyHost) (s : RustString), (legal_bytes s).contains 0 = false →
      reply_simple_string prim s =
        some (prim (.simpleString (legal_bytes s)), [.simpleString (legal_bytes s)]) ∧
      reply_error_string prim s =
        some (prim (.errorString (legal_bytes s)), [.errorString (legal_bytes s)])) ∧
    (∀ s : RustString, legal_bytes s = s.data.map legal_byte) ∧
    legal_bytes "a\r\nb\x00c" = utf8 "a  b c" ∧
    (∀ (prim : ReplyHost) (s : RustString), (utf8 s).contains 0 = true →
      replyValue prim (.SimpleString s) = none ∧
      replyValue prim (.SimpleStringStatic s) = none) ∧
    (∀ (prim : ReplyHost) (s : RustString), (utf8 s).contains 0 = false →
      replyValue prim (.SimpleString s) =
        some (prim (.simpleString (utf8 s)), [.simpleString (utf8 s)]) ∧
      replyValue prim (.SimpleStringStatic s) =
        some (prim (.simpleString (utf8 s)), [.simpleString (utf8 s)])) := by
  refine ⟨?_, fun s => rfl, rfl, ?_, ?_⟩
  · intro prim s h
    have h' : ¬(0 ∈ legal_bytes s) := by simpa using h
    constructor <;>
      simp [reply_simple_string, reply_error_string, str_as_legal_resp_string,
        cstring_new, h']
  · intro prim s h
    have h' : 0 ∈ utf8 s := by simpa using h
    constructor <;> simp [replyValue, cstring_new, h']
  · intro prim s h
    have h' : ¬(0 ∈ utf8 s) := by simpa using h
    constructor <;> simp [replyValue, cstring_new, h']

/-- Witness for C1: the claim's input has an interior NUL (so the encoder
arm panics on it), while the sanitizing path emits exactly the bytes of
a-space-space-b-space-c. -/
theorem C1_witness :
    (legal_bytes "a\r\nb\x00c").contains 0 = false ∧
    reply_simple_string (fun _ => raw.Status.Ok) "a\r\nb\x00c" =
      some (raw.Status.Ok, [.simpleString (utf8 "a  b c")]) ∧
    (utf8 "a\r\nb\x00c").contains 0 = true ∧
    replyValue (fun _ => raw.Status.Ok) (.SimpleString "a\r\nb\x00c") = none := by
  have h0 : (legal_bytes "a\r\nb\x00c").contains 0 = false := rfl
  have h1 := (C1_simple_string_sanitization.1 (fun _ => raw.Status.Ok) "a\r\nb\x00c" h0).1
  have h2 : legal_bytes "a\r\nb\x00c" = utf8 "a  b c" :=
    C1_simple_string_sanitization.2.2.1
  rw [h2] at h1
  have h3 : (utf8 "a\r\nb\x00c").contains 0 = true := rfl
  have h4 :=
    (C1_simple_string_sanitization.2.2.2.1 (fun _ => raw.Status.Ok) "a\r\nb\x00c" h3).1
  exact ⟨h0, h1, h3, h4⟩

/-- C7: the ACL key-permission check on a user name that resolves to no user
handle fails with the user-does-not-exist error having performed no
permission check and no release; on a resolved handle the native check runs
once and the handle is freed exactly once, on the permission-granted and the
permission-denied path alike. -/
theorem C7_acl_check_resolution_and_release
    (get_user : RustString → Option UserHandle)
    (check : UserHandle → List Nat → Nat → Bool) (user_name : RustString)
    (key_name : List Nat) (permissions : AclPermissions) :
    (get_user user_name = none →
      acl_check_key_permission get_user check user_name key_name permissions =
        (.error (.Str "User does not exists or disabled"), [])) ∧
    (∀ u, get_user user_name = some u →
      (acl_check_key_permission get_user check user_name key_name permissions).2 =
        [.aclCheckCall u key_name permissions.flags, .freeUser u] ∧
      (acl_check_key_permission get_user check user_name key_name
          permissions).2.count (.freeUser u) = 1 ∧
      (check u key_name permissions.flags = true →
        acl_check_key_permission get_user check user_name key_name permissions =
          (.ok (),
            [.aclCheckCall u key_name permissions.flags, .freeUser u])) ∧
      (check u key_name permissions.flags = false →
        acl_check_key_permission get_user check user_name key_name permissions =
          (.error (.Str "User does not have permissions on key"),
            [.aclCheckCall u key_name permissions.flags, .freeUser u]))) := by
  constructor
  · intro h
    simp [acl_check_key_permission, h]
  · intro u h
    refine ⟨?_, ?_, ?_, ?_⟩
    · cases hcheck : check u key_name permissions.flags <;>
        simp [acl_check_key_permission, h, hcheck]
    · cases hcheck : check u key_name permissions.flags <;>
        simp [acl_check_key_permission, h, hcheck, List.count_cons]
    · intro hc
      simp [acl_check_key_permission, h, hc]
    · intro hc
      simp [acl_check_key_permission, h, hc]

/-- Witness for C7: an unresolvable user name, and a resolved user handle on
a denying host, whose trace frees the handle exactly once. -/
theorem C7_witness :
    acl_check_key_permission (fun _ => none) (fun _ _ _ => true) "alice" [107]
      AclPermissions.new = (.error (.Str "User does not exists or disabled"), []) ∧
    (acl_check_key_permission (fun _ => some 7) (fun _ _ _ => false) "bob" [107]
      AclPermissions.new).2.count (.freeUser 7) = 1 ∧
    acl_check_key_permission (fun _ => some 7) (fun _ _ _ => true) "bob" [107]
      AclPermissions.new = (.ok (), [.aclCheckCall 7 [107] 0, .freeUser 7]) := by
  refine ⟨(C7_acl_check_resolution_and_release (fun _ => none) (fun _ _ _ => true)
      "alice" [107] AclPermissions.new).1 rfl,
    ((C7_acl_check_resolution_and_release (fun _ => some 7) (fun _ _ _ => false)
      "bob" [107] AclPermissions.new).2 7 rfl).2.1,
    ?_⟩
  have h := (((C7_acl_check_resolution_and_release (fun _ => some 7) (fun _ _ _ => true)
      "bob" [107] AclPermissions.new).2 7 rfl).2.2.1) rfl
  exact h

/-- C8: version_from_info on textual info content whose redis_version
pattern captures are 7, 2 and 3 yields the Version with major 7, minor 2,
patch 3; on content where the pattern is absent it fails with the
descriptive error. -/
theorem C8_version_from_info (info_str : RustString) :
    (get_regexp_captures_version info_str = some ("7", "2", "3") →
      version_from_info (.SimpleString info_str) =
        some (.ok { major := 7, minor := 2, patch := 3 })) ∧
    (get_regexp_captures_version info_str = none →
      version_from_info (.SimpleString info_str) =
        some (.error (.Str "Error getting redis_version"))) := by
  constructor
  · intro h
    simp [version_from_info, version_from_info_str, h, parse_digits, c_int_max]
  · intro h
    simp [version_from_info, version_from_info_str, h]

/-- Witness for C8: a typical info text containing redis_version:7.2.3, and
one with no version pattern. -/
theorem C8_witness :
    get_regexp_captures_version "# Server\nredis_version:7.2.3\nos:Linux" =
      some ("7", "2", "3") ∧
    version_from_info (.SimpleString "# Server\nredis_version:7.2.3\nos:Linux") =
      some (.ok { major := 7, minor := 2, patch := 3 }) ∧
    get_regexp_captures_version "# Server\nos:Linux" = none ∧
    version_from_info (.SimpleString "# Server\nos:Linux") =
      some (.error (.Str "Error getting redis_version")) := by
  have h1 : get_regexp_captures_version "# Server\nredis_version:7.2.3\nos:Linux" =
      some ("7", "2", "3") := by decide
  have h2 : get_regexp_captures_version "# Server\nos:Linux" = none := by decide
  exact ⟨h1, (C8_version_from_info "# Server\nredis_version:7.2.3\nos:Linux").1 h1,
    h2, (C8_version_from_info "# Server\nos:Linux").2 h2⟩

/-- Appending to a successfully decoded prefix of map pairs: the first
failure of the remaining pairs is the failure of the whole loop. -/
theorem parsePairs_append_error (suf : List (CallReply × CallReply)) (m : RedisError)
    (hsuf : (parsePairs suf).1 = .error m) :
    ∀ (pre : List (CallReply × CallReply)) (l : List (List Nat × RedisValue)),
      (parsePairs pre).1 = .ok l → (parsePairs (pre ++ suf)).1 = .error m := by
  intro pre
  induction pre with
  | nil => intro l _; simpa using hsuf
  | cons p pre ih =>
    intro l h
    obtain ⟨key, val⟩ := p
    rcases hk : parseOne key with ⟨rk, tk⟩
    cases rk with
    | error e => simp [parsePairs, hk] at h
    | ok keyv =>
      rcases hv : parseOne val with ⟨rv, tv⟩
      cases rv with
      | error e => simp [parsePairs, hk, hv] at h
      | ok valv =>
        cases hmk : map_key_bytes keyv with
        | error e => simp [parsePairs, hk, hv, hmk] at h
        | ok kb =>
          rcases hrest : parsePairs pre with ⟨rr, tr⟩
          cases rr with
          | error e => simp [parsePairs, hk, hv, hmk, hrest] at h
          | ok l2 =>
            have hres := ih l2 (by rw [hrest])
            rcases happ : parsePairs (pre ++ suf) with ⟨ra, ta⟩
            rw [happ] at hres
            simp at hres
            show (parsePairs ((key, val) :: (pre ++ suf))).1 = .error m
            cases ra with
            | error e2 =>
              simp [parsePairs, hk, hv, hmk, happ]
              exact Except.error.inj hres
            | ok _ => simp at hres

/-- Appending to a successfully decoded prefix of set members: the first
failure of the remaining members is the failure of the whole loop. -/
theorem parseMembers_append_error (suf : List CallReply) (m : RedisError)
    (hsuf : (parseMembers suf).1 = .error m) :
    ∀ (pre : List CallReply) (l : List (List Nat)),
      (parseMembers pre).1 = .ok l → (parseMembers (pre ++ suf)).1 = .error m := by
  intro pre
  induction pre with
  | nil => intro l _; simpa using hsuf
  | cons e pre ih =>
    intro l h
    rcases hk : parseOne e with ⟨rk, tk⟩
    cases rk with
    | error e0 => simp [parseMembers, hk] at h
    | ok memv =>
      cases hmk : set_member_bytes memv with
      | error e0 => simp [parseMembers, hk, hmk] at h
      | ok b =>
        rcases hrest : parseMembers pre with ⟨rr, tr⟩
        cases rr with
        | error e0 => simp [parseMembers, hk, hmk, hrest] at h
        | ok l2 =>
          have hres := ih l2 (by rw [hrest])
          rcases happ : parseMembers (pre ++ suf) with ⟨ra, ta⟩
          rw [happ] at hres
          simp at hres
          show (parseMembers (e :: (pre ++ suf))).1 = .error m
          cases ra with
          | error e2 =>
            simp [parseMembers, hk, hmk, happ]
            exact Except.error.inj hres
          | ok _ => simp at hres

/-- A decoded value with no byte-sequence projection is rejected by both
narrowing matches, with their respective static messages. -/
theorem no_projection_rejected (v : RedisValue) (h : has_bytes_projection v = false) :
    map_key_bytes v = .error (.Str "type is not supported as map key") ∧
    set_member_bytes v = .error (.Str "type is not supported on set") := by
  cases v <;> simp_all [has_bytes_projection, map_key_bytes, set_member_bytes]

/-- Counterexample to C4 as stated: a double reply is numeric, yet as a map
key (or set member) it is not projected to its decimal text — the decoder
rejects it with the unsupported-type error, the narrowing match accepting
Float values only, which the decoder never produces (a double reply decodes
to the Double variant). -/
theorem C4_counterexample :
    parse_call_reply (some (.map [(.double 1.5, .integer 4)])) =
      (.error (.Str "type is not supported as map key"), []) ∧
    parse_call_reply (some (.set [.double 1.5])) =
      (.error (.Str "type is not supported on set"), []) ∧
    (∀ d, has_bytes_projection (.Double d) = false) :=
  ⟨rfl, rfl, fun _ => rfl⟩

/-- C4 amended: decoding a Map (or Set) reply whose decoded key (member) is
a variant with no byte-sequence projection — nested Array, Map and Set, and
likewise Double, Bool, BigNumber, VerbatimString, Null — returns the
descriptive unsupported-type error (the decoder is a total function, so it
never panics); integer keys and members are projected to their decimal text
encoding. -/
theorem C4_unsupported_key_rejected :
    (∀ v, has_bytes_projection v = false →
      map_key_bytes v = .error (.Str "type is not supported as map key") ∧
      set_member_bytes v = .error (.Str "type is not supported on set")) ∧
    ((∀ a, has_bytes_projection (.Array a) = false) ∧
      (∀ m, has_bytes_projection (.Map m) = false) ∧
      (∀ s, has_bytes_projection (.Set s) = false)) ∧
    (∀ i, map_key_bytes (.Integer i) = .ok (utf8 (rust_i64_to_string i)) ∧
      set_member_bytes (.Integer i) = .ok (utf8 (rust_i64_to_string i))) ∧
    (∀ (pre : List (CallReply × CallReply)) (l : List (List Nat × RedisValue))
      (k v : CallReply) (rest : List (CallReply × CallReply)) (keyv valv : RedisValue)
      (tk tv : List FreeEvent),
      (parsePairs pre).1 = .ok l →
      parseOne k = (.ok keyv, tk) → parseOne v = (.ok valv, tv) →
      has_bytes_projection keyv = false →
      parse_call_reply (some (.map (pre ++ (k, v) :: rest))) =
        (.error (.Str "type is not supported as map key"), [])) ∧
    (∀ (pre : List CallReply) (l : List (List Nat)) (e : CallReply)
      (rest : List CallReply) (memv : RedisValue) (tk : List FreeEvent),
      (parseMembers pre).1 = .ok l →
      parseOne e = (.ok memv, tk) →
      has_bytes_projection memv = false →
      parse_call_reply (some (.set (pre ++ e :: rest))) =
        (.error (.Str "type is not supported on set"), [])) := by
  refine ⟨no_projection_rejected, ⟨fun _ => rfl, fun _ => rfl, fun _ => rfl⟩,
    fun i => ⟨rfl, rfl⟩, ?_, ?_⟩
  · intro pre l k v rest keyv valv tk tv hpre hk hv hproj
    have hmk := (no_projection_rejected keyv hproj).1
    have hhead : (parsePairs ((k, v) :: rest)).1 =
        .error (.Str "type is not supported as map key") := by
      simp [parsePairs, hk, hv, hmk]
    have hfst := parsePairs_append_error _ _ hhead pre l hpre
    have hsnd : (parsePairs (pre ++ (k, v) :: rest)).2 = [] :=
      parse_frees_nil_all.2.2.1 _
    have hfull : parsePairs (pre ++ (k, v) :: rest) =
        (.error (.Str "type is not supported as map key"), []) :=
      Prod.ext hfst hsnd
    simp [parse_call_reply, parseOne, hfull]
  · intro pre l e rest memv tk hpre hk hproj
    have hmk := (no_projection_rejected memv hproj).2
    have hhead : (parseMembers (e :: rest)).1 =
        .error (.Str "type is not supported on set") := by
      simp [parseMembers, hk, hmk]
    have hfst := parseMembers_append_error _ _ hhead pre l hpre
    have hsnd : (parseMembers (pre ++ e :: rest)).2 = [] :=
      parse_frees_nil_all.2.1 _
    have hfull : parseMembers (pre ++ e :: rest) =
        (.error (.Str "type is not supported on set"), []) :=
      Prod.ext hfst hsnd
    simp [parse_call_reply, parseOne, hfull]

/-- Witness for C4: a map reply whose second pair carries a nested-array
key, after a well-formed first pair, and a set reply with a nested-map
member; plus the integer projection at 42. -/
theorem C4_witness :
    parse_call_reply (some (.map [(.integer 1, .integer 2), (.array [], .integer 0)])) =
      (.error (.Str "type is not supported as map key"), []) ∧
    parse_call_reply (some (.set [.map []])) =
      (.error (.Str "type is not supported on set"), []) ∧
    map_key_bytes (.Integer 42) = .ok (utf8 (rust_i64_to_string 42)) := by
  refine ⟨?_, ?_, (C4_unsupported_key_rejected.2.2.1 42).1⟩
  · have h := C4_unsupported_key_rejected.2.2.2.1 [(.integer 1, .integer 2)]
      [(utf8 (rust_i64_to_string 1), .Integer 2)] (.array []) (.integer 0) []
      (.Array []) (.Integer 0) [] [] rfl rfl rfl rfl
    exact h
  · have h := C4_unsupported_key_rejected.2.2.2.2 [] [] (.map []) [] (.Map []) []
      rfl rfl rfl
    exact h

end RedisModule
